import Mathlib

/- Verification development for the options analytics core of the OT-v1
repository, shallowly embedded from `src/option_fetcher.py`.

Modelling conventions:
  * Python floats are modelled as real numbers (`ℝ`);
  * Python `None` is `Option.none`; a nullable float is `Option ℝ`;
  * Python strings are modelled as lists of character codes (`List ℕ`);
  * dates (`datetime.date`) are modelled as integer day numbers (`ℤ`), so that
    `(d2 - d1).days` becomes integer subtraction;
  * a `datetime` is only ever used through `.date()` in the embedded code, so it
    is also modelled by its day number.

Modelling floats as reals totalizes double-precision arithmetic: where the
double code underflows, overflows, or raises a domain error, the real model
computes the exact value instead.  The definitions affected by this carry an
explicit note, and the claims that hinge on double rounding or on exception
paths are settled outside the model. -/

namespace OTVerify

/-- Gauss error function, the mathematical function computed by Python's
`math.erf`: `erf x = 2/√π * ∫ t in 0..x, exp (-t²)`. -/
noncomputable def erf (x : ℝ) : ℝ :=
  2 / Real.sqrt Real.pi * ∫ t in (0:ℝ)..x, Real.exp (-t ^ 2)

/-- `_norm_cdf(x) = 0.5 * (1.0 + math.erf(x / math.sqrt(2.0)))`. -/
noncomputable def norm_cdf (x : ℝ) : ℝ :=
  0.5 * (1 + erf (x / Real.sqrt 2))

/-- `_norm_pdf(x) = (1.0 / math.sqrt(2.0 * math.pi)) * math.exp(-0.5 * x * x)`. -/
noncomputable def norm_pdf (x : ℝ) : ℝ :=
  (1 / Real.sqrt (2 * Real.pi)) * Real.exp (-0.5 * x * x)

/-- Python `OptionType = Literal["C", "P"]`. -/
inductive OptionType
  | C
  | P
  deriving DecidableEq, Repr

open Classical in
/-- `_bs_price(S, K, T, r, q, sigma, opt_type)` from `option_fetcher.py`:
degenerate branch returns the discounted intrinsic value, standard branch is
the closed-form Black-Scholes price.

Note on totalization: this real-valued model is total, while the double
version can raise — `math.log(S / K)` raises `ValueError` when the positive
quotient `S / K` underflows to `0.0` (e.g. `S = 1e-300`, `K = 1e300`), and
`math.exp(-r * T)` raises `OverflowError` for `r ≤ -710 / T`.  Over the
reals these expressions are well-defined, so no theorem about this model can
speak about those exception paths. -/
noncomputable def bs_price (S K T r q sigma : ℝ) (opt_type : OptionType) : ℝ :=
  if T ≤ 0 ∨ sigma ≤ 0 ∨ S ≤ 0 ∨ K ≤ 0 then
    match opt_type with
    | .C => max 0 (S * Real.exp (-q * T) - K * Real.exp (-r * T))
    | .P => max 0 (K * Real.exp (-r * T) - S * Real.exp (-q * T))
  else
    let d1 := (Real.log (S / K) + (r - q + 0.5 * sigma * sigma) * T) /
      (sigma * Real.sqrt T)
    let d2 := d1 - sigma * Real.sqrt T
    match opt_type with
    | .C => S * Real.exp (-q * T) * norm_cdf d1 - K * Real.exp (-r * T) * norm_cdf d2
    | .P => K * Real.exp (-r * T) * norm_cdf (-d2) - S * Real.exp (-q * T) * norm_cdf (-d1)

/-- Result record of `_bs_greeks`: the Python function returns the dict
`{"delta": .., "gamma": .., "theta": .., "vega": ..}` whose values are floats
or `None`. -/
structure Greeks where
  delta : Option ℝ
  gamma : Option ℝ
  theta : Option ℝ
  vega : Option ℝ

open Classical in
/-- `_bs_greeks(S, K, T, r, q, sigma, opt_type)` from `option_fetcher.py`. -/
noncomputable def bs_greeks (S K T r q sigma : ℝ) (opt_type : OptionType) : Greeks :=
  if T ≤ 0 ∨ sigma ≤ 0 ∨ S ≤ 0 ∨ K ≤ 0 then
    { delta := none, gamma := none, theta := none, vega := none }
  else
    let d1 := (Real.log (S / K) + (r - q + 0.5 * sigma * sigma) * T) /
      (sigma * Real.sqrt T)
    let d2 := d1 - sigma * Real.sqrt T
    let Nd1 := norm_cdf d1
    let pdf_d1 := norm_pdf d1
    let disc_q := Real.exp (-q * T)
    let disc_r := Real.exp (-r * T)
    let gamma := disc_q * pdf_d1 / (S * sigma * Real.sqrt T)
    let vega := S * disc_q * pdf_d1 * Real.sqrt T
    match opt_type with
    | .C =>
      { delta := some (disc_q * Nd1)
        gamma := some gamma
        theta := some (-(S * disc_q * pdf_d1 * sigma) / (2 * Real.sqrt T)
          - r * K * disc_r * norm_cdf d2 + q * S * disc_q * Nd1)
        vega := some vega }
    | .P =>
      { delta := some (disc_q * (Nd1 - 1))
        gamma := some gamma
        theta := some (-(S * disc_q * pdf_d1 * sigma) / (2 * Real.sqrt T)
          + r * K * disc_r * norm_cdf (-d2) - q * S * disc_q * norm_cdf (-d1))
        vega := some vega }

open Classical in
/-- The bisection loop of `_implied_volatility`: one call per remaining
iteration of `for _ in range(max_iter)`, carrying the current bracket
`(low, high)`; falling out of the loop returns `None`.  The loop locals
`mid = 0.5 * (low + high)`, `mid_price` and `diff = mid_price - price` are
inlined. -/
noncomputable def iv_loop (S K T r q : ℝ) (opt_type : OptionType) (price tol : ℝ) :
    ℕ → ℝ → ℝ → Option ℝ
  | 0, _, _ => none
  | n + 1, low, high =>
    if |bs_price S K T r q (0.5 * (low + high)) opt_type - price| < tol then
      some (0.5 * (low + high))
    else if bs_price S K T r q (0.5 * (low + high)) opt_type - price > 0 then
      iv_loop S K T r q opt_type price tol n low (0.5 * (low + high))
    else iv_loop S K T r q opt_type price tol n (0.5 * (low + high)) high

open Classical in
/-- `_implied_volatility(price, S, K, T, r, q, opt_type, tol=1e-4, max_iter=100)`
from `option_fetcher.py`.  The Python keyword defaults `tol=1e-4, max_iter=100`
are passed explicitly by every use in this file.

Note on totalization: the bracket and the tolerance test are exact real
arithmetic here.  The double version differs at extreme magnitudes — once the
price's unit in the last place exceeds the absolute tolerance `1e-4`, the
float test `abs(diff) < tol` can only succeed through bitwise equality of
`mid_price` and `price`, and the midpoints themselves round — so convergence
behaviour at such magnitudes is a property of double rounding that this model
does not capture. -/
noncomputable def implied_volatility (price S K T r q : ℝ) (opt_type : OptionType)
    (tol : ℝ) (max_iter : ℕ) : Option ℝ :=
  if price ≤ 0 ∨ T ≤ 0 ∨ S ≤ 0 ∨ K ≤ 0 then none
  else iv_loop S K T r q opt_type price tol max_iter 1e-4 5

/-- `_years_to_expiry(expiry, as_of)`: `max(days, 0) / 365.0` where `days` is
the signed day difference.  The branches of the Python function only coerce
the various accepted expiry types to a date, which the embedding's date model
makes implicit. -/
noncomputable def years_to_expiry (expiry as_of : ℤ) : ℝ :=
  (max (expiry - as_of) 0 : ℤ) / 365.0

/-! ### Python strings, the symbol normalizer and the instrument matcher

Python strings are modelled as lists of character codes.  `str.strip()`,
`str.upper()` and `str.replace(" ", "")` become list operations; `upper` is
modelled on the ASCII range actually exercised by the symbols involved. -/

/-- A Python string, as a list of character codes. -/
abbrev Str := List ℕ

/-- Character codes of a Lean string literal, used to write down concrete
Python strings. -/
def codes (s : String) : Str := s.data.map Char.toNat

/-- The characters removed by Python `str.strip()`
(space, tab, newline, carriage return, vertical tab, form feed). -/
def isPyWs (c : ℕ) : Bool :=
  c = 32 || c = 9 || c = 10 || c = 13 || c = 11 || c = 12

/-- Python `str.upper()` on one character (ASCII letters). -/
def pyUpperChar (c : ℕ) : ℕ := if 97 ≤ c ∧ c ≤ 122 then c - 32 else c

/-- Python `str.strip()`: drop leading and trailing whitespace. -/
def pyStrip (s : Str) : Str :=
  ((s.dropWhile isPyWs).reverse.dropWhile isPyWs).reverse

/-- Python `str.upper()`. -/
def pyUpper (s : Str) : Str := s.map pyUpperChar

/-- Python `str.replace(" ", "")`: remove every space character. -/
def removeSpaces (s : Str) : Str := s.filter (fun c => c ≠ 32)

/-- The module-level `_UNDERLYING_ALIASES` table. -/
def UNDERLYING_ALIASES : List (Str × Str) :=
  [(codes "NIFTY", codes "NIFTY"),
   (codes "NIFTY50", codes "NIFTY"),
   (codes "NIFTY 50", codes "NIFTY"),
   (codes "BANKNIFTY", codes "BANKNIFTY"),
   (codes "BANK NIFTY", codes "BANKNIFTY"),
   (codes "NIFTY BANK", codes "BANKNIFTY"),
   (codes "FINNIFTY", codes "FINNIFTY"),
   (codes "NIFTY FIN SERVICE", codes "FINNIFTY")]

/-- Python `key in _UNDERLYING_ALIASES` / `_UNDERLYING_ALIASES[key]`, combined
as a lookup. -/
def aliasLookup (s : Str) : Option Str :=
  (UNDERLYING_ALIASES.find? (fun p => p.1 == s)).map (fun p => p.2)

/-- `_normalize_underlying(value)` from `option_fetcher.py`.  The argument is a
Python string (the `value or ""` guard only replaces `None` by `""`, which the
typed embedding renders as the empty list).  The source's local variables
`raw = (value or "").strip().upper()` and `collapsed = raw.replace(" ", "")`
are inlined. -/
def normalize_underlying (value : Str) : Str :=
  if pyUpper (pyStrip value) = [] then []
  else
    match aliasLookup (pyUpper (pyStrip value)) with
    | some v => v
    | none =>
      match aliasLookup (removeSpaces (pyUpper (pyStrip value))) with
      | some v => v
      | none => removeSpaces (pyUpper (pyStrip value))

/-- A string whose first and last characters (when they exist) are not
whitespace — the shape of any `str.strip()` result.  Used to reason about
idempotence of the normalizer. -/
def noWsEnds (s : Str) : Prop :=
  (∀ c, s.head? = some c → isPyWs c = false) ∧
  (∀ c, s.getLast? = some c → isPyWs c = false)

/-- A raw instrument record from the provider dump: a Python dict, modelled
with one optional typed field per key read by the code (`inst.get(k)` is
`none` when the key is absent).  The numeric coercions `_to_int` / `_to_float`
succeed on the typed values, and their failure-on-`None` default is rendered
with `Option.getD`. -/
structure RawInstrument where
  exchange : Option Str
  instrument_type : Option Str
  name : Option Str
  tradingsymbol : Option Str
  expiry : Option ℤ
  instrument_token : Option ℤ
  strike : Option ℝ
  lot_size : Option ℤ
  tick_size : Option ℝ
  segment : Option Str

/-- The `OptionInstrument` dataclass from `models.py` (dates as day numbers,
floats as reals). -/
structure OptionInstrument where
  fetch_date : ℤ
  underlying : Str
  exchange : Str
  tradingsymbol : Str
  instrument_token : ℤ
  name : Option Str
  strike : ℝ
  expiry : ℤ
  instrument_type : Str
  lot_size : ℤ
  tick_size : Option ℝ
  segment : Option Str

/-- Python `ch.isdigit()` on the ASCII digits occurring in trading symbols. -/
def isDigitCode (c : ℕ) : Bool := 48 ≤ c && c ≤ 57

/-- `_extract_underlying_candidates(inst)` from `option_fetcher.py`: the
normalized `name` field and the normalized leading non-digit run of
`tradingsymbol`.  The Python function returns a `set`; it is modelled as the
list of candidates in insertion order (the only downstream uses are the
emptiness test, intersection with the requested set, and picking one element
of the intersection — `next(iter(...))` on a Python set is order-unspecified,
which the list determinizes). -/
def extract_underlying_candidates (inst : RawInstrument) : List Str :=
  let fromName : List Str :=
    match inst.name with
    | some n =>
      if pyStrip n ≠ [] then
        let m := normalize_underlying n
        if m ≠ [] then [m] else []
      else []
    | none => []
  let fromSymbol : List Str :=
    match inst.tradingsymbol with
    | some ts =>
      if ts ≠ [] then
        let lead := ts.takeWhile (fun c => ¬ isDigitCode c)
        if lead ≠ [] then
          let m := normalize_underlying lead
          if m ≠ [] then [m] else []
        else []
      else []
    | none => []
  fromName ++ (fromSymbol.filter (fun m => m ∉ fromName))

/-- The normalized requested-underlying set built at the top of
`filter_options_for_underlyings` (a Python set comprehension; modelled as the
deduplicated list of normalized valid entries). -/
def normalizedUnderlyings (underlyings : List Str) : List Str :=
  ((underlyings.filter (fun u => pyStrip u ≠ [])).map normalize_underlying).dedup

/-- The per-record body of the loop in `filter_options_for_underlyings`:
`none` when the record is dropped by one of the `continue`s, otherwise the
constructed `OptionInstrument`.  `today` stands for `date.today()`. -/
noncomputable def match_instrument (today : ℤ) (normalized : List Str)
    (inst : RawInstrument) : Option OptionInstrument :=
  if inst.exchange ≠ some (codes "NFO") then none
  else
    match inst.instrument_type with
    | none => none
    | some itype =>
      if itype ≠ codes "CE" ∧ itype ≠ codes "PE" then none
      else
        if extract_underlying_candidates inst = [] then none
        else
          match ((extract_underlying_candidates inst).filter
              (fun c => c ∈ normalized)).head? with
          | none => none
          | some matched =>
            some
              { fetch_date := today
                instrument_token := (inst.instrument_token).getD 0
                underlying := matched
                exchange := (inst.exchange).getD []
                tradingsymbol := (inst.tradingsymbol).getD []
                name := inst.name
                strike := (inst.strike).getD 0
                expiry := (inst.expiry).getD today
                instrument_type := itype
                lot_size := (inst.lot_size).getD 0
                tick_size := inst.tick_size
                segment := inst.segment }

/-- `filter_options_for_underlyings(instruments_dump, underlyings)` from
`option_fetcher.py`. -/
noncomputable def filter_options_for_underlyings (today : ℤ)
    (instruments_dump : List RawInstrument) (underlyings : List Str) :
    List OptionInstrument :=
  let normalized := normalizedUnderlyings underlyings
  if normalized = [] then []
  else instruments_dump.filterMap (match_instrument today normalized)

/-! ### The snapshot assembler -/

/-- One level of the Kite depth book: `{"price": .., "quantity": ..}` with
either key possibly absent or non-coercible (rendered as `none`). -/
structure DepthEntry where
  price : Option ℝ
  quantity : Option ℤ

/-- The `depth` member of a quote: `{"buy": [...], "sell": [...]}`. -/
structure Depth where
  buy : List DepthEntry
  sell : List DepthEntry

/-- One entry of the bulk-quote response, with the keys read by
`build_option_data_snapshot`.  A key that is absent is `none`; `depth` is
`none` when the `depth` member is absent or falsy; `volume`/`oi` are `none`
when absent or not `int()`-coercible. -/
structure Quote where
  last_price : Option ℝ
  depth : Option Depth
  volume : Option ℤ
  oi : Option ℤ

/-- The `OptionData` dataclass from `models.py` (the read model the assembler
fills in), with `snapshot_time` as the day number of `now`. -/
structure OptionData where
  option_instrument_id : ℤ
  snapshot_time : ℤ
  underlying_price : Option ℝ
  last_price : Option ℝ
  bid_price : Option ℝ
  bid_qty : Option ℤ
  ask_price : Option ℝ
  ask_qty : Option ℤ
  volume : Option ℤ
  open_interest : Option ℤ
  implied_volatility : Option ℝ
  delta : Option ℝ
  gamma : Option ℝ
  theta : Option ℝ
  vega : Option ℝ

/-- Python truthiness of a nullable float: `None` and `0.0` are falsy. -/
def floatTruthy (x : Option ℝ) : Prop := ∃ v, x = some v ∧ v ≠ 0

/-- The module-level `INDEX_SPOT_SYMBOL` mapping. -/
def INDEX_SPOT_SYMBOL : List (Str × Str) :=
  [(codes "NIFTY", codes "NSE:NIFTY 50"),
   (codes "BANKNIFTY", codes "NSE:NIFTY BANK"),
   (codes "FINNIFTY", codes "NSE:NIFTY FIN SERVICE")]

/-- `INDEX_SPOT_SYMBOL.get(u, f"NSE:{u}")`. -/
def spot_symbol (u : Str) : Str :=
  ((INDEX_SPOT_SYMBOL.find? (fun p => p.1 == u)).map (fun p => p.2)).getD
    (codes "NSE:" ++ u)

/-- Resolution of one underlying's spot price from the bulk-LTP response
(step 1 of `build_option_data_snapshot`).  `ltp sym` models the value
`float(ltp_resp[sym]["last_price"])` when `ltp_resp.get(sym)` is a truthy dict
carrying a float-coercible `last_price`, and `none` in every failure case of
the source (key absent, falsy entry, `last_price` absent, coercion error). -/
def resolve_spot (ltp : Str → Option ℝ) (u : Str) : Option ℝ :=
  ltp (spot_symbol u)

/-- The bid extraction of `build_option_data_snapshot`: first element of the
buy depth, when the depth and a nonempty buy list are present. -/
def bid_price_of (q : Quote) : Option ℝ :=
  match q.depth with
  | some d => d.buy.head?.bind (fun e => e.price)
  | none => none

/-- Bid quantity, analogous to `bid_price_of`. -/
def bid_qty_of (q : Quote) : Option ℤ :=
  match q.depth with
  | some d => d.buy.head?.bind (fun e => e.quantity)
  | none => none

/-- Ask price: first element of the sell depth. -/
def ask_price_of (q : Quote) : Option ℝ :=
  match q.depth with
  | some d => d.sell.head?.bind (fun e => e.price)
  | none => none

/-- Ask quantity, analogous to `ask_price_of`. -/
def ask_qty_of (q : Quote) : Option ℤ :=
  match q.depth with
  | some d => d.sell.head?.bind (fun e => e.quantity)
  | none => none

open Classical in
/-- The analytics block of the loop body (`# IV + Greeks`) once both the spot
`s` and the last price `lp` are present: all five outputs stay `None` unless
both are truthy (non-zero), the time to expiry is positive, and the solver
returns a truthy volatility.  The source's locals `T`, `opt_type` and `g` are
inlined. -/
noncomputable def snapshot_analytics_pos (now : ℤ) (risk_free_rate : ℝ)
    (inst : OptionInstrument) (s lp : ℝ) :
    Option ℝ × Option ℝ × Option ℝ × Option ℝ × Option ℝ :=
  if s ≠ 0 ∧ lp ≠ 0 then
    if 0 < years_to_expiry inst.expiry now then
      match implied_volatility lp s inst.strike (years_to_expiry inst.expiry now)
        risk_free_rate 0
        (if inst.instrument_type = codes "CE" then OptionType.C else OptionType.P)
        1e-4 100 with
      | some iv_val =>
        if iv_val ≠ 0 then
          (some iv_val,
           (bs_greeks s inst.strike (years_to_expiry inst.expiry now)
             risk_free_rate 0 iv_val
             (if inst.instrument_type = codes "CE" then OptionType.C
              else OptionType.P)).delta,
           (bs_greeks s inst.strike (years_to_expiry inst.expiry now)
             risk_free_rate 0 iv_val
             (if inst.instrument_type = codes "CE" then OptionType.C
              else OptionType.P)).gamma,
           (bs_greeks s inst.strike (years_to_expiry inst.expiry now)
             risk_free_rate 0 iv_val
             (if inst.instrument_type = codes "CE" then OptionType.C
              else OptionType.P)).theta,
           (bs_greeks s inst.strike (years_to_expiry inst.expiry now)
             risk_free_rate 0 iv_val
             (if inst.instrument_type = codes "CE" then OptionType.C
              else OptionType.P)).vega)
        else (none, none, none, none, none)
      | none => (none, none, none, none, none)
    else (none, none, none, none, none)
  else (none, none, none, none, none)

/-- The analytics block including the Python truthiness test
`if spot and last_price and inst.expiry:` (a `date` is always truthy, so only
the two prices gate): a missing spot or last price leaves every analytics
field `None`. -/
noncomputable def snapshot_analytics (now : ℤ) (risk_free_rate : ℝ)
    (inst : OptionInstrument) (spot last_price : Option ℝ) :
    Option ℝ × Option ℝ × Option ℝ × Option ℝ × Option ℝ :=
  match spot, last_price with
  | some s, some lp => snapshot_analytics_pos now risk_free_rate inst s lp
  | _, _ => (none, none, none, none, none)

/-- The `OptionData` appended to `results` for an instrument whose quote `q`
is present (the loop body below the `continue`). -/
noncomputable def emit_snapshot (now : ℤ) (risk_free_rate : ℝ)
    (ltp : Str → Option ℝ) (inst : OptionInstrument) (q : Quote) : OptionData :=
  { option_instrument_id := inst.instrument_token
    snapshot_time := now
    underlying_price := resolve_spot ltp inst.underlying
    last_price := q.last_price
    bid_price := bid_price_of q
    bid_qty := bid_qty_of q
    ask_price := ask_price_of q
    ask_qty := ask_qty_of q
    volume := q.volume
    open_interest := q.oi
    implied_volatility :=
      (snapshot_analytics now risk_free_rate inst
        (resolve_spot ltp inst.underlying) q.last_price).1
    delta :=
      (snapshot_analytics now risk_free_rate inst
        (resolve_spot ltp inst.underlying) q.last_price).2.1
    gamma :=
      (snapshot_analytics now risk_free_rate inst
        (resolve_spot ltp inst.underlying) q.last_price).2.2.1
    theta :=
      (snapshot_analytics now risk_free_rate inst
        (resolve_spot ltp inst.underlying) q.last_price).2.2.2.1
    vega :=
      (snapshot_analytics now risk_free_rate inst
        (resolve_spot ltp inst.underlying) q.last_price).2.2.2.2 }

/-- The body of the per-instrument loop of `build_option_data_snapshot`:
`none` when the instrument is skipped (`if not q: continue` — the only skip),
otherwise the `OptionData` appended to `results`.  The debug-logging block has
no effect on the result and is not modelled. -/
noncomputable def process_instrument (now : ℤ) (risk_free_rate : ℝ)
    (ltp : Str → Option ℝ) (quotes : Str → Option Quote)
    (inst : OptionInstrument) : Option OptionData :=
  (quotes (inst.exchange ++ codes ":" ++ inst.tradingsymbol)).map
    (emit_snapshot now risk_free_rate ltp inst)

/-- `build_option_data_snapshot(kite_client, option_instruments, risk_free_rate)`
from `option_fetcher.py`.  The two bulk calls on `kite_client` are modelled as
the response maps `ltp` (spot resolution per symbol, see `resolve_spot`) and
`quotes` (per option symbol; `none` for an absent or falsy entry, matching
`if not q: continue`).  The source prefetches the spot of each distinct
underlying once; since the embedding reads the response map pointwise, this
is the same per-instrument value.  The early return on an empty instrument
list coincides with `List.filterMap` on `[]`. -/
noncomputable def build_option_data_snapshot (now : ℤ) (ltp : Str → Option ℝ)
    (quotes : Str → Option Quote) (option_instruments : List OptionInstrument)
    (risk_free_rate : ℝ) : List OptionData :=
  option_instruments.filterMap (process_instrument now risk_free_rate ltp quotes)

/-! ### Concrete sample data for witnesses and counterexamples -/

/-- A raw catalog record for a NIFTY call, used to exercise the matcher. -/
noncomputable def sampleRawCE : RawInstrument :=
  { exchange := some (codes "NFO")
    instrument_type := some (codes "CE")
    name := some (codes "NIFTY")
    tradingsymbol := some (codes "NIFTY25DEC24000CE")
    expiry := some 20100
    instrument_token := some 123
    strike := some 24000
    lot_size := some 75
    tick_size := some 1
    segment := some (codes "NFO-OPT") }

/-- The `OptionInstrument` the matcher derives from `sampleRawCE` on day
20000 for requested underlying "NIFTY 50". -/
noncomputable def sampleMatchedCE : OptionInstrument :=
  { fetch_date := 20000
    underlying := codes "NIFTY"
    exchange := codes "NFO"
    tradingsymbol := codes "NIFTY25DEC24000CE"
    instrument_token := 123
    name := some (codes "NIFTY")
    strike := 24000
    expiry := 20100
    instrument_type := codes "CE"
    lot_size := 75
    tick_size := some 1
    segment := some (codes "NFO-OPT") }

/-- A matched contract on an equity-style underlying "ACME". -/
noncomputable def cex1Inst : OptionInstrument :=
  { fetch_date := 0
    underlying := codes "ACME"
    exchange := codes "NFO"
    tradingsymbol := codes "ACME24000CE"
    instrument_token := 7
    name := none
    strike := 100
    expiry := 30
    instrument_type := codes "CE"
    lot_size := 1
    tick_size := none
    segment := none }

/-- A quote entry that is present (truthy) but carries no last price: only
volume and a true-zero open interest. -/
noncomputable def cex1Quote : Quote :=
  { last_price := none, depth := none, volume := some 100, oi := some 0 }

/-- A quote map holding `cex1Quote` for `cex1Inst` only. -/
noncomputable def cex1Quotes : Str → Option Quote := fun k =>
  if k = codes "NFO:ACME24000CE" then some cex1Quote else none

/-- An LTP response that resolves no spot symbol at all. -/
def noLtp : Str → Option ℝ := fun _ => none

/-- The snapshot the assembler emits for `cex1Inst` under `cex1Quotes` and
`noLtp`: both prices null, raw fields copied, analytics null. -/
noncomputable def cex1Out : OptionData :=
  { option_instrument_id := 7
    snapshot_time := 0
    underlying_price := none
    last_price := none
    bid_price := none
    bid_qty := none
    ask_price := none
    ask_qty := none
    volume := some 100
    open_interest := some 0
    implied_volatility := none
    delta := none
    gamma := none
    theta := none
    vega := none }

/-- A quote entry whose last price is a true zero, with zero-valued bid and
volume fields present. -/
noncomputable def c10Quote : Quote :=
  { last_price := some 0
    depth := some { buy := [{ price := some 0, quantity := some 0 }], sell := [] }
    volume := some 0
    oi := some 5 }

/-- A quote map holding `c10Quote` for `cex1Inst`. -/
noncomputable def c10Quotes : Str → Option Quote := fun k =>
  if k = codes "NFO:ACME24000CE" then some c10Quote else none

/-- An LTP response resolving the "ACME" spot to 100. -/
noncomputable def spot100 : Str → Option ℝ := fun k =>
  if k = codes "NSE:ACME" then some 100 else none

/-! ### Helper lemmas on the error function -/

theorem continuous_gauss : Continuous fun t : ℝ => Real.exp (-t ^ 2) :=
  Real.continuous_exp.comp (continuous_pow 2).neg

theorem gauss_intervalIntegrable (a b : ℝ) :
    IntervalIntegrable (fun t : ℝ => Real.exp (-t ^ 2)) MeasureTheory.volume a b :=
  continuous_gauss.intervalIntegrable a b

theorem erf_zero : erf 0 = 0 := by
  simp [erf]

theorem erf_neg (x : ℝ) : erf (-x) = -erf x := by
  have hcomp : (∫ t in (0:ℝ)..x, Real.exp (-(-t) ^ 2)) =
      ∫ t in (-x)..(-(0:ℝ)), Real.exp (-t ^ 2) :=
    intervalIntegral.integral_comp_neg (fun t : ℝ => Real.exp (-t ^ 2))
  have heven : (∫ t in (0:ℝ)..x, Real.exp (-(-t) ^ 2)) =
      ∫ t in (0:ℝ)..x, Real.exp (-t ^ 2) := by
    congr 1
    funext t
    rw [neg_sq]
  have hsymm : (∫ t in (0:ℝ)..(-x), Real.exp (-t ^ 2)) =
      -∫ t in (-x)..(0:ℝ), Real.exp (-t ^ 2) :=
    intervalIntegral.integral_symm _ _
  rw [neg_zero] at hcomp
  unfold erf
  rw [hsymm, ← hcomp, heven]
  ring

theorem erf_strictMono : StrictMono erf := by
  intro x y hxy
  have hsplit : (∫ t in (0:ℝ)..x, Real.exp (-t ^ 2)) +
      (∫ t in x..y, Real.exp (-t ^ 2)) = ∫ t in (0:ℝ)..y, Real.exp (-t ^ 2) :=
    intervalIntegral.integral_add_adjacent_intervals
      (gauss_intervalIntegrable 0 x) (gauss_intervalIntegrable x y)
  have hpos : 0 < ∫ t in x..y, Real.exp (-t ^ 2) :=
    intervalIntegral.intervalIntegral_pos_of_pos
      (gauss_intervalIntegrable x y) (fun t => Real.exp_pos _) hxy
  have hc : 0 < 2 / Real.sqrt Real.pi := by
    have : 0 < Real.sqrt Real.pi := Real.sqrt_pos.mpr Real.pi_pos
    positivity
  unfold erf
  rw [← hsplit]
  nlinarith [hpos, hc]

theorem norm_cdf_add_neg (x : ℝ) : norm_cdf x + norm_cdf (-x) = 1 := by
  unfold norm_cdf
  have h : -x / Real.sqrt 2 = -(x / Real.sqrt 2) := by ring
  rw [h, erf_neg]
  ring

/-! ### C4: degenerate branch of the pricing model -/

/-- C4: whenever `T ≤ 0`, `σ ≤ 0`, `S ≤ 0` or `K ≤ 0`, `_bs_price` returns
exactly the discounted intrinsic value for either side; in particular at
`T = 0` it returns `max 0 (S - K)` for calls and `max 0 (K - S)` for puts,
for every `σ`. -/
theorem claim_C4_degenerate_price (S K T r q sigma : ℝ) :
    ((T ≤ 0 ∨ sigma ≤ 0 ∨ S ≤ 0 ∨ K ≤ 0) →
      bs_price S K T r q sigma OptionType.C =
        max 0 (S * Real.exp (-q * T) - K * Real.exp (-r * T)) ∧
      bs_price S K T r q sigma OptionType.P =
        max 0 (K * Real.exp (-r * T) - S * Real.exp (-q * T))) ∧
    (bs_price S K 0 r q sigma OptionType.C = max 0 (S - K) ∧
     bs_price S K 0 r q sigma OptionType.P = max 0 (K - S)) := by
  constructor
  · intro h
    constructor <;> · unfold bs_price; rw [if_pos h]
  · have h0 : (0:ℝ) ≤ 0 ∨ sigma ≤ 0 ∨ S ≤ 0 ∨ K ≤ 0 := Or.inl le_rfl
    constructor <;>
      · unfold bs_price; rw [if_pos h0]; simp

/-- Witness for C4 at `S = 3`, `K = 1`, `T = -1` and at `T = 0`. -/
theorem claim_C4_witness :
    bs_price 3 1 (-1) 2 5 1 OptionType.C =
      max 0 (3 * Real.exp (-5 * (-1)) - 1 * Real.exp (-2 * (-1))) ∧
    bs_price 3 1 0 2 5 1 OptionType.P = max 0 (1 - 3) :=
  ⟨((claim_C4_degenerate_price 3 1 (-1) 2 5 1).1 (by norm_num)).1,
   (claim_C4_degenerate_price 3 1 0 2 5 1).2.2⟩

/-! ### C5: put-call parity on the standard branch -/

/-- C5: for positive `S`, `K`, `T`, `σ` and any `r`, `q`, the call and put
prices of `_bs_price` satisfy put-call parity exactly over the reals. -/
theorem claim_C5_put_call_parity (S K T r q sigma : ℝ)
    (hS : 0 < S) (hK : 0 < K) (hT : 0 < T) (hsigma : 0 < sigma) :
    bs_price S K T r q sigma OptionType.C - bs_price S K T r q sigma OptionType.P
      = S * Real.exp (-q * T) - K * Real.exp (-r * T) := by
  have hcond : ¬(T ≤ 0 ∨ sigma ≤ 0 ∨ S ≤ 0 ∨ K ≤ 0) := by
    push_neg
    exact ⟨hT, hsigma, hS, hK⟩
  unfold bs_price
  rw [if_neg hcond, if_neg hcond]
  have h1 := norm_cdf_add_neg ((Real.log (S / K) + (r - q + 0.5 * sigma * sigma) * T) /
    (sigma * Real.sqrt T))
  have h2 := norm_cdf_add_neg ((Real.log (S / K) + (r - q + 0.5 * sigma * sigma) * T) /
    (sigma * Real.sqrt T) - sigma * Real.sqrt T)
  linear_combination S * Real.exp (-q * T) * h1 - K * Real.exp (-r * T) * h2

/-- Witness for C5 at `S = K = T = σ = 1`, `r = q = 0`. -/
theorem claim_C5_witness :
    bs_price 1 1 1 0 0 1 OptionType.C - bs_price 1 1 1 0 0 1 OptionType.P = 0 := by
  have h := claim_C5_put_call_parity 1 1 1 0 0 1
    (by norm_num) (by norm_num) (by norm_num) (by norm_num)
  simpa using h

/-! ### C6: the sensitivity calculator is all-null or all-populated -/

/-- C6: `_bs_greeks` returns all four of delta, gamma, theta, vega as `None`
exactly when one of `S`, `K`, `T`, `σ` is non-positive, and otherwise all four
are populated; the result is never partially populated. -/
theorem claim_C6_greeks_all_or_nothing (S K T r q sigma : ℝ) (ot : OptionType) :
    (bs_greeks S K T r q sigma ot =
        { delta := none, gamma := none, theta := none, vega := none } ↔
      (T ≤ 0 ∨ sigma ≤ 0 ∨ S ≤ 0 ∨ K ≤ 0)) ∧
    (bs_greeks S K T r q sigma ot =
        { delta := none, gamma := none, theta := none, vega := none } ∨
      ∃ d g th v, bs_greeks S K T r q sigma ot =
        { delta := some d, gamma := some g, theta := some th, vega := some v }) := by
  by_cases h : T ≤ 0 ∨ sigma ≤ 0 ∨ S ≤ 0 ∨ K ≤ 0
  · constructor
    · constructor
      · intro _
        exact h
      · intro _
        unfold bs_greeks
        rw [if_pos h]
    · left
      unfold bs_greeks
      rw [if_pos h]
  · constructor
    · constructor
      · intro heq
        exfalso
        unfold bs_greeks at heq
        rw [if_neg h] at heq
        cases ot <;> simp [Greeks.mk.injEq] at heq
      · intro hcond
        exact absurd hcond h
    · right
      unfold bs_greeks
      rw [if_neg h]
      cases ot <;> exact ⟨_, _, _, _, rfl⟩

/-! ### C3: the solver's error-handling contract -/

/-- Any volatility returned by the bisection loop prices back to the observed
price within the tolerance: the loop never returns a midpoint that failed the
tolerance test. -/
theorem iv_loop_some_tol (S K T r q : ℝ) (ot : OptionType) (price tol : ℝ) :
    ∀ n low high sigma, iv_loop S K T r q ot price tol n low high = some sigma →
      |bs_price S K T r q sigma ot - price| < tol := by
  intro n
  induction n with
  | zero =>
    intro low high sigma h
    simp [iv_loop] at h
  | succ n ih =>
    intro low high sigma h
    rw [iv_loop] at h
    by_cases h1 : |bs_price S K T r q (0.5 * (low + high)) ot - price| < tol
    · simp only [if_pos h1, Option.some.injEq] at h
      rw [← h]
      exact h1
    · simp only [if_neg h1] at h
      by_cases h2 : bs_price S K T r q (0.5 * (low + high)) ot - price > 0
      · rw [if_pos h2] at h
        exact ih _ _ _ h
      · rw [if_neg h2] at h
        exact ih _ _ _ h

/-- C3, guard and non-convergence parts: with the source's `tol = 1e-4` and
`max_iter = 100`, `_implied_volatility` returns `None` on any non-positive
price, spot, strike or time to expiry (the guard precedes the loop, so no
bisection step runs), and otherwise returns either `None` (in particular when
the iteration ceiling is exhausted) or a volatility whose model price matches
the observed price within the tolerance — never a non-converged midpoint.

The claim's remaining conjunct — that the solver never raises an exception
for any real-valued input — is false of the double-precision source: at
`price = 1.0`, `S = 1e-300`, `K = 1e300`, `T = 1`, `r = q = 0` the guard
passes, and the first midpoint's `_bs_price` call evaluates
`math.log(S / K)` where `S / K` underflows to `0.0`, raising `ValueError`;
similarly `math.exp(-r * T)` overflows for `r ≤ -710 / T`.  The real-valued
model is total exactly where those error paths live (see the note on
`bs_price`), so that conjunct is settled against the source rather than by a
theorem. -/
theorem claim_C3_solver_error_contract (price S K T r q : ℝ) (ot : OptionType) :
    ((price ≤ 0 ∨ T ≤ 0 ∨ S ≤ 0 ∨ K ≤ 0) →
      implied_volatility price S K T r q ot 1e-4 100 = none) ∧
    (implied_volatility price S K T r q ot 1e-4 100 = none ∨
      ∃ sigma, implied_volatility price S K T r q ot 1e-4 100 = some sigma ∧
        |bs_price S K T r q sigma ot - price| < 1e-4) := by
  constructor
  · intro h
    unfold implied_volatility
    rw [if_pos h]
  · cases hres : implied_volatility price S K T r q ot 1e-4 100 with
    | none => exact Or.inl rfl
    | some sigma =>
      refine Or.inr ⟨sigma, rfl, ?_⟩
      unfold implied_volatility at hres
      by_cases h : price ≤ 0 ∨ T ≤ 0 ∨ S ≤ 0 ∨ K ≤ 0
      · rw [if_pos h] at hres
        exact absurd hres (by simp)
      · rw [if_neg h] at hres
        exact iv_loop_some_tol S K T r q ot price 1e-4 100 _ _ sigma hres

/-- Witness for C3: the solver returns `None` for a negative observed price. -/
theorem claim_C3_witness :
    implied_volatility (-1) 1 1 1 0 0 OptionType.C 1e-4 100 = none :=
  (claim_C3_solver_error_contract (-1) 1 1 1 0 0 OptionType.C).1
    (Or.inl (by norm_num))

/-! ### Helper lemmas for the symbol normalizer -/

theorem pyUpperChar_idem (c : ℕ) : pyUpperChar (pyUpperChar c) = pyUpperChar c := by
  unfold pyUpperChar
  split_ifs <;> omega

theorem isPyWs_pyUpperChar (c : ℕ) : isPyWs (pyUpperChar c) = isPyWs c := by
  unfold pyUpperChar
  split_ifs with h
  · rw [Bool.eq_iff_iff]
    unfold isPyWs
    simp only [Bool.or_eq_true, decide_eq_true_eq]
    omega
  · rfl

theorem head?_dropWhile_not (p : ℕ → Bool) :
    ∀ (l : Str) (c : ℕ), (l.dropWhile p).head? = some c → p c = false := by
  intro l
  induction l with
  | nil =>
    intro c h
    simp at h
  | cons a t ih =>
    intro c h
    rw [List.dropWhile_cons] at h
    cases hp : p a with
    | true =>
      rw [hp, if_pos rfl] at h
      exact ih c h
    | false =>
      rw [hp, if_neg Bool.false_ne_true] at h
      simp only [List.head?_cons, Option.some.injEq] at h
      rw [← h]
      exact hp

theorem getLast?_dropWhile (p : ℕ → Bool) :
    ∀ l : Str, List.dropWhile p l ≠ [] →
      (List.dropWhile p l).getLast? = l.getLast? := by
  intro l
  induction l with
  | nil =>
    intro h
    simp at h
  | cons a t ih =>
    intro h
    rw [List.dropWhile_cons] at h ⊢
    cases hp : p a with
    | true =>
      rw [if_pos hp] at h
      rw [if_pos rfl]
      have ht : t ≠ [] := by
        intro ht
        rw [ht] at h
        simp at h
      rw [ih h]
      cases t with
      | nil => exact absurd rfl ht
      | cons b t2 => rw [List.getLast?_cons_cons]
    | false =>
      rw [if_neg Bool.false_ne_true]

theorem pyStrip_noWsEnds (s : Str) : noWsEnds (pyStrip s) := by
  constructor
  · intro c h
    unfold pyStrip at h
    rw [List.head?_reverse] at h
    by_cases hv : List.dropWhile isPyWs (List.dropWhile isPyWs s).reverse = []
    · rw [hv] at h
      simp at h
    · rw [getLast?_dropWhile _ _ hv, List.getLast?_reverse] at h
      exact head?_dropWhile_not _ _ _ h
  · intro c h
    unfold pyStrip at h
    rw [List.getLast?_reverse] at h
    exact head?_dropWhile_not _ _ _ h

theorem pyStrip_eq_self_of_noWsEnds (s : Str) (h : noWsEnds s) : pyStrip s = s := by
  obtain ⟨h1, h2⟩ := h
  have hd : List.dropWhile isPyWs s = s := by
    cases s with
    | nil => rfl
    | cons a t =>
      rw [List.dropWhile_cons, h1 a rfl, if_neg Bool.false_ne_true]
  have hrev : List.dropWhile isPyWs s.reverse = s.reverse := by
    rcases hs : s.reverse with _ | ⟨a, t⟩
    · rfl
    · have ha : s.getLast? = some a := by
        rw [← List.head?_reverse, hs, List.head?_cons]
      rw [List.dropWhile_cons, h2 a ha, if_neg Bool.false_ne_true]
  unfold pyStrip
  rw [hd, hrev, List.reverse_reverse]

theorem pyUpper_noWsEnds (s : Str) (h : noWsEnds s) : noWsEnds (pyUpper s) := by
  obtain ⟨h1, h2⟩ := h
  constructor
  · intro c hc
    unfold pyUpper at hc
    rw [List.head?_map, Option.map_eq_some'] at hc
    obtain ⟨a, ha, rfl⟩ := hc
    rw [isPyWs_pyUpperChar]
    exact h1 a ha
  · intro c hc
    unfold pyUpper at hc
    rw [List.getLast?_map, Option.map_eq_some'] at hc
    obtain ⟨a, ha, rfl⟩ := hc
    rw [isPyWs_pyUpperChar]
    exact h2 a ha

theorem not_space_of_not_ws {a : ℕ} (h : isPyWs a = false) : (decide (a ≠ 32)) = true := by
  unfold isPyWs at h
  simp only [Bool.or_eq_false_iff, decide_eq_false_iff_not] at h
  simp only [ne_eq, decide_eq_true_eq]
  exact h.1.1.1.1.1

theorem removeSpaces_noWsEnds (s : Str) (h : noWsEnds s) :
    noWsEnds (removeSpaces s) := by
  obtain ⟨h1, h2⟩ := h
  constructor
  · intro c hc
    cases s with
    | nil => simp [removeSpaces] at hc
    | cons a t =>
      have ha : isPyWs a = false := h1 a rfl
      unfold removeSpaces at hc
      simp only [List.filter_cons] at hc
      rw [if_pos (not_space_of_not_ws ha), List.head?_cons, Option.some.injEq] at hc
      rw [← hc]
      exact ha
  · intro c hc
    have hrc : (removeSpaces s.reverse).head? = some c := by
      unfold removeSpaces at hc ⊢
      rw [List.filter_reverse, List.head?_reverse]
      exact hc
    rcases hs : s.reverse with _ | ⟨a, t⟩
    · rw [hs] at hrc
      simp [removeSpaces] at hrc
    · have ha : isPyWs a = false := by
        apply h2
        rw [← List.head?_reverse, hs, List.head?_cons]
      rw [hs] at hrc
      unfold removeSpaces at hrc
      simp only [List.filter_cons] at hrc
      rw [if_pos (not_space_of_not_ws ha), List.head?_cons, Option.some.injEq] at hrc
      rw [← hrc]
      exact ha

theorem pyUpper_fixed (s : Str) (a : ℕ) (h : a ∈ pyUpper s) :
    pyUpperChar a = a := by
  unfold pyUpper at h
  rcases List.mem_map.mp h with ⟨b, _, rfl⟩
  exact pyUpperChar_idem b

theorem pyUpper_eq_self (s : Str) (h : ∀ a ∈ s, pyUpperChar a = a) :
    pyUpper s = s := by
  induction s with
  | nil => rfl
  | cons a t ih =>
    unfold pyUpper at ih ⊢
    rw [List.map_cons, h a (List.mem_cons_self a t),
      ih (fun b hb => h b (List.mem_cons_of_mem a hb))]

theorem aliasLookup_canonical (s v : Str) (h : aliasLookup s = some v) :
    v = codes "NIFTY" ∨ v = codes "BANKNIFTY" ∨ v = codes "FINNIFTY" := by
  unfold aliasLookup at h
  rw [Option.map_eq_some'] at h
  obtain ⟨p, hfind, hv⟩ := h
  have hmem := List.mem_of_find?_eq_some hfind
  subst hv
  fin_cases hmem
  · exact Or.inl rfl
  · exact Or.inl rfl
  · exact Or.inl rfl
  · exact Or.inr (Or.inl rfl)
  · exact Or.inr (Or.inl rfl)
  · exact Or.inr (Or.inl rfl)
  · exact Or.inr (Or.inr rfl)
  · exact Or.inr (Or.inr rfl)

/-! ### C9: the symbol normalizer is idempotent -/

/-- C9: `_normalize_underlying` is idempotent, and it maps an empty or
whitespace-only string to the empty string. -/
theorem claim_C9_normalizer_idempotent (x : Str) :
    normalize_underlying (normalize_underlying x) = normalize_underlying x ∧
    ((∀ c ∈ x, isPyWs c = true) → normalize_underlying x = []) := by
  constructor
  · by_cases hraw : pyUpper (pyStrip x) = []
    · have h1 : normalize_underlying x = [] := by
        unfold normalize_underlying
        rw [if_pos hraw]
      rw [h1]
      decide
    · cases halias : aliasLookup (pyUpper (pyStrip x)) with
      | some v =>
        have h1 : normalize_underlying x = v := by
          unfold normalize_underlying
          rw [if_neg hraw, halias]
        rw [h1]
        rcases aliasLookup_canonical _ _ halias with h | h | h <;> rw [h] <;> decide
      | none =>
        cases halias2 : aliasLookup (removeSpaces (pyUpper (pyStrip x))) with
        | some v =>
          have h1 : normalize_underlying x = v := by
            unfold normalize_underlying
            rw [if_neg hraw, halias, halias2]
          rw [h1]
          rcases aliasLookup_canonical _ _ halias2 with h | h | h <;> rw [h] <;> decide
        | none =>
          have h1 : normalize_underlying x = removeSpaces (pyUpper (pyStrip x)) := by
            unfold normalize_underlying
            rw [if_neg hraw, halias, halias2]
          rw [h1]
          have hends : noWsEnds (removeSpaces (pyUpper (pyStrip x))) :=
            removeSpaces_noWsEnds _ (pyUpper_noWsEnds _ (pyStrip_noWsEnds x))
          have hstrip : pyStrip (removeSpaces (pyUpper (pyStrip x))) =
              removeSpaces (pyUpper (pyStrip x)) :=
            pyStrip_eq_self_of_noWsEnds _ hends
          have hup : pyUpper (removeSpaces (pyUpper (pyStrip x))) =
              removeSpaces (pyUpper (pyStrip x)) := by
            apply pyUpper_eq_self
            intro a ha
            exact pyUpper_fixed _ _ (List.mem_of_mem_filter ha)
          have hnospace : removeSpaces (removeSpaces (pyUpper (pyStrip x))) =
              removeSpaces (pyUpper (pyStrip x)) := by
            apply List.filter_eq_self.mpr
            intro a ha
            exact (List.mem_filter.mp ha).2
          by_cases hc : removeSpaces (pyUpper (pyStrip x)) = []
          · rw [hc]
            decide
          · unfold normalize_underlying
            rw [hstrip, hup, if_neg hc, hnospace, halias2]
  · intro hws
    have hstrip : pyStrip x = [] := by
      unfold pyStrip
      rw [List.dropWhile_eq_nil_iff.mpr hws]
      rfl
    unfold normalize_underlying
    rw [hstrip]
    rfl

/-- Witness for C9: a whitespace-only input normalizes to the empty string. -/
theorem claim_C9_witness : normalize_underlying (codes " \t ") = [] :=
  (claim_C9_normalizer_idempotent (codes " \t ")).2 (by decide)

/-! ### C7: the instrument matcher -/

/-- Any record the per-instrument matcher emits carries the record's own
`instrument_type`, which passed the `("CE", "PE")` membership test. -/
theorem match_instrument_itype (today : ℤ) (ns : List Str) (inst : RawInstrument)
    (o : OptionInstrument) (h : match_instrument today ns inst = some o) :
    o.instrument_type = codes "CE" ∨ o.instrument_type = codes "PE" := by
  unfold match_instrument at h
  split at h
  · exact absurd h (by simp)
  · split at h
    · exact absurd h (by simp)
    · rename_i itype heq
      split at h
      · exact absurd h (by simp)
      · rename_i h2
        push_neg at h2
        split at h
        · exact absurd h (by simp)
        · split at h
          · exact absurd h (by simp)
          · simp only [Option.some.injEq] at h
            rw [← h]
            by_cases hce : itype = codes "CE"
            · exact Or.inl hce
            · exact Or.inr (h2 hce)

/-- C7: the matcher only ever returns CE/PE contracts, and returns nothing at
all when the requested-underlying list has no valid non-blank entry. -/
theorem claim_C7_matcher_sides_and_empty (today : ℤ) (dump : List RawInstrument)
    (us : List Str) :
    (∀ o ∈ filter_options_for_underlyings today dump us,
      o.instrument_type = codes "CE" ∨ o.instrument_type = codes "PE") ∧
    ((∀ u ∈ us, pyStrip u = []) →
      filter_options_for_underlyings today dump us = []) := by
  constructor
  · intro o ho
    unfold filter_options_for_underlyings at ho
    by_cases hn : normalizedUnderlyings us = []
    · rw [if_pos hn] at ho
      simp at ho
    · rw [if_neg hn] at ho
      rw [List.mem_filterMap] at ho
      obtain ⟨inst, _, hmi⟩ := ho
      exact match_instrument_itype today (normalizedUnderlyings us) inst o hmi
  · intro h
    have hn : normalizedUnderlyings us = [] := by
      unfold normalizedUnderlyings
      have hf : us.filter (fun u => pyStrip u ≠ []) = [] := by
        rw [List.filter_eq_nil_iff]
        intro u hu
        simp [h u hu]
      rw [hf]
      rfl
    unfold filter_options_for_underlyings
    rw [if_pos hn]

/-- Witness for C7: the sample call contract is matched for the alias
"NIFTY 50" and carries side CE, while blank-only requested underlyings yield
an empty result. -/
theorem claim_C7_witness :
    (sampleMatchedCE.instrument_type = codes "CE" ∨
      sampleMatchedCE.instrument_type = codes "PE") ∧
    filter_options_for_underlyings 20000 [sampleRawCE] [codes " ", codes ""] = [] := by
  constructor
  · apply (claim_C7_matcher_sides_and_empty 20000 [sampleRawCE]
      [codes "NIFTY 50"]).1 sampleMatchedCE
    rw [show filter_options_for_underlyings 20000 [sampleRawCE] [codes "NIFTY 50"]
      = [sampleMatchedCE] from rfl]
    exact List.mem_singleton_self _
  · exact (claim_C7_matcher_sides_and_empty 20000 [sampleRawCE]
      [codes " ", codes ""]).2 (by decide)

/-! ### C8: a missing quote skips the contract and nothing else -/

/-- C8: a matched contract with no entry in the quote map produces no
snapshot, and the remaining batch is processed exactly as if the contract had
not been in the batch at all. -/
theorem claim_C8_missing_quote_per_instrument (now : ℤ) (ltp : Str → Option ℝ)
    (quotes : Str → Option Quote) (r : ℝ) (inst : OptionInstrument)
    (l1 l2 : List OptionInstrument)
    (h : quotes (inst.exchange ++ codes ":" ++ inst.tradingsymbol) = none) :
    process_instrument now r ltp quotes inst = none ∧
    build_option_data_snapshot now ltp quotes (l1 ++ inst :: l2) r =
      build_option_data_snapshot now ltp quotes (l1 ++ l2) r := by
  have hp : process_instrument now r ltp quotes inst = none := by
    unfold process_instrument
    rw [h]
    rfl
  refine ⟨hp, ?_⟩
  unfold build_option_data_snapshot
  rw [List.filterMap_append, List.filterMap_append]
  congr 1
  rw [List.filterMap_cons_none hp]

/-- Witness for C8: with a quote map that only knows the "ACME" contract, the
"NIFTY" contract is skipped and its siblings are unaffected. -/
theorem claim_C8_witness :
    process_instrument 0 0.07 noLtp cex1Quotes sampleMatchedCE = none ∧
    build_option_data_snapshot 0 noLtp cex1Quotes
        ([] ++ sampleMatchedCE :: [cex1Inst]) 0.07 =
      build_option_data_snapshot 0 noLtp cex1Quotes ([] ++ [cex1Inst]) 0.07 :=
  claim_C8_missing_quote_per_instrument 0 noLtp cex1Quotes 0.07 sampleMatchedCE
    [] [cex1Inst] rfl

/-! ### C10: a true-zero price or zero time to expiry nulls the analytics -/

/-- The analytics block yields all-null when the resolved spot is a true zero,
the last price is a true zero, or the computed time to expiry is zero. -/
theorem snapshot_analytics_zero_null (now : ℤ) (r : ℝ) (inst : OptionInstrument)
    (spot lp : Option ℝ)
    (h : spot = some 0 ∨ lp = some 0 ∨ years_to_expiry inst.expiry now = 0) :
    snapshot_analytics now r inst spot lp = (none, none, none, none, none) := by
  cases spot with
  | none => rfl
  | some s =>
    cases lp with
    | none => rfl
    | some v =>
      have hdef : snapshot_analytics now r inst (some s) (some v) =
          snapshot_analytics_pos now r inst s v := rfl
      rw [hdef]
      unfold snapshot_analytics_pos
      by_cases hgate : s ≠ 0 ∧ v ≠ 0
      · rw [if_pos hgate]
        rcases h with h | h | h
        · simp only [Option.some.injEq] at h
          exact absurd h hgate.1
        · simp only [Option.some.injEq] at h
          exact absurd h hgate.2
        · rw [h]
          rw [if_neg (lt_irrefl 0)]
      · rw [if_neg hgate]

/-- C10: when a contract's quote is present but its resolved spot price or
last-traded price is exactly `0.0`, or its time to expiry is `0`, the snapshot
is still emitted with implied volatility and all four Greeks null, while the
raw quote fields (including true zeroes) are copied through verbatim. -/
theorem claim_C10_zero_gating (now : ℤ) (ltp : Str → Option ℝ)
    (quotes : Str → Option Quote) (r : ℝ) (inst : OptionInstrument) (q : Quote)
    (hq : quotes (inst.exchange ++ codes ":" ++ inst.tradingsymbol) = some q)
    (hzero : resolve_spot ltp inst.underlying = some 0 ∨ q.last_price = some 0 ∨
      years_to_expiry inst.expiry now = 0) :
    process_instrument now r ltp quotes inst = some
      { option_instrument_id := inst.instrument_token
        snapshot_time := now
        underlying_price := resolve_spot ltp inst.underlying
        last_price := q.last_price
        bid_price := bid_price_of q
        bid_qty := bid_qty_of q
        ask_price := ask_price_of q
        ask_qty := ask_qty_of q
        volume := q.volume
        open_interest := q.oi
        implied_volatility := none
        delta := none
        gamma := none
        theta := none
        vega := none } := by
  unfold process_instrument
  rw [hq, Option.map_some']
  unfold emit_snapshot
  rw [snapshot_analytics_zero_null now r inst _ _ hzero]

/-- Witness for C10: a quote with a true-zero last price emits a snapshot
whose zero-valued bid/volume survive while the analytics are null. -/
theorem claim_C10_witness :
    process_instrument 5 0.07 spot100 c10Quotes cex1Inst = some
      { option_instrument_id := 7
        snapshot_time := 5
        underlying_price := some 100
        last_price := some 0
        bid_price := some 0
        bid_qty := some 0
        ask_price := none
        ask_qty := none
        volume := some 0
        open_interest := some 5
        implied_volatility := none
        delta := none
        gamma := none
        theta := none
        vega := none } :=
  claim_C10_zero_gating 5 spot100 c10Quotes 0.07 cex1Inst c10Quote rfl
    (Or.inr (Or.inl rfl))

/-! ### C1: which contracts produce a snapshot -/

/-- Counterexample to C1: a batch whose single contract has a present quote
with no last price and no resolvable spot still emits a snapshot, so the
returned list contains a record with `last_price` and `underlying_price` both
null. -/
theorem claim_C1_counterexample :
    ¬ (∀ od ∈ build_option_data_snapshot 0 noLtp cex1Quotes [cex1Inst] 0.07,
        od.last_price ≠ none ∨ od.underlying_price ≠ none) := by
  intro hall
  have hmem : cex1Out ∈ build_option_data_snapshot 0 noLtp cex1Quotes [cex1Inst] 0.07 := by
    rw [show build_option_data_snapshot 0 noLtp cex1Quotes [cex1Inst] 0.07
      = [cex1Out] from rfl]
    exact List.mem_singleton_self _
  rcases hall cex1Out hmem with h | h
  · exact h rfl
  · exact h rfl

/-- C1 (amended): the assembler skips a contract exactly when its quote entry
is missing; an emitted snapshot may lack both prices, but any snapshot lacking
both a last-traded price and a resolvable spot price carries null implied
volatility and null Greeks. -/
theorem claim_C1_amended_no_price_no_analytics (now : ℤ) (ltp : Str → Option ℝ)
    (quotes : Str → Option Quote) (insts : List OptionInstrument) (r : ℝ) :
    ∀ od ∈ build_option_data_snapshot now ltp quotes insts r,
      od.last_price = none → od.underlying_price = none →
        od.implied_volatility = none ∧ od.delta = none ∧ od.gamma = none ∧
          od.theta = none ∧ od.vega = none := by
  intro od hod hlast _
  unfold build_option_data_snapshot at hod
  rw [List.mem_filterMap] at hod
  obtain ⟨inst, _, hmi⟩ := hod
  unfold process_instrument at hmi
  cases hq : quotes (inst.exchange ++ codes ":" ++ inst.tradingsymbol) with
  | none =>
    rw [hq] at hmi
    exact absurd hmi (by simp)
  | some q =>
    rw [hq, Option.map_some'] at hmi
    simp only [Option.some.injEq] at hmi
    have hlp : q.last_price = none := by
      rw [← hmi] at hlast
      unfold emit_snapshot at hlast
      exact hlast
    have hnull : snapshot_analytics now r inst
        (resolve_spot ltp inst.underlying) q.last_price =
        (none, none, none, none, none) := by
      rw [hlp]
      cases resolve_spot ltp inst.underlying <;> rfl
    rw [← hmi]
    unfold emit_snapshot
    rw [hnull]
    exact ⟨rfl, rfl, rfl, rfl, rfl⟩

/-- Witness for the amended C1 at the counterexample batch: the emitted
both-null record indeed carries null analytics. -/
theorem claim_C1_amended_witness :
    cex1Out.implied_volatility = none ∧ cex1Out.delta = none ∧
      cex1Out.gamma = none ∧ cex1Out.theta = none ∧ cex1Out.vega = none := by
  apply claim_C1_amended_no_price_no_analytics 0 noLtp cex1Quotes [cex1Inst] 0.07
    cex1Out ?_ rfl rfl
  rw [show build_option_data_snapshot 0 noLtp cex1Quotes [cex1Inst] 0.07
    = [cex1Out] from rfl]
  exact List.mem_singleton_self _

end OTVerify
